import Mathlib

/-!
Verification of the RSIBot repository's decision engine against its
specification.

The development shallowly embeds the pure decision logic of the repository:

* `rsi` and `rsi_multi` embed `src/utils/rsi.py` (Wilder-smoothed RSI over a
  close-price series, rationals standing in for Python floats);
* `TradePlan`, `build_trade_plan` and `hold_or_exit_on_15m` embed
  `src/strategy/simple_strategy.py`;
* `is_oversold`, `is_overbought` and `check_signal` embed the alert decision
  of `src/utils/rsi_notifier.py` (`_is_oversold`, `_is_overbought`,
  `_check_and_notify`), with the fetched close series passed in as data;
* `cursorStep` / `cursorRun` embed the per-(symbol, interval) debounce cursor
  of `run_rsi_notifier` in `src/utils/rsi_notifier.py`;
* `BotState`, `Event`, `mainStep` and `mainRun` embed the trade-lifecycle
  control loop of `src/main.py` as a state machine; the blocking
  `wait_for_new_closed_kline` / `latest_kline` calls are modelled by an
  oracle event stream supplying the data each wait would return, and the
  exchange-mutating calls are collected into an explicit trace.
-/

/-! ## Oscillator engine (src/utils/rsi.py) -/

/-- One per-step `(gain, loss)` pair: `(ch if ch > 0 else 0.0, -ch if ch < 0 else 0.0)`. -/
def gainLoss (ch : ℚ) : ℚ × ℚ :=
  ((if ch > 0 then ch else 0), (if ch < 0 then -ch else 0))

/-- The list `changes` of `rsi`: consecutive differences `closes[i] - closes[i-1]`
mapped to `(gain, loss)` pairs. -/
def changesOf (closes : List ℚ) : List (ℚ × ℚ) :=
  (List.zipWith (fun b a => b - a) closes.tail closes).map gainLoss

/-- One iteration of the Wilder-smoothing loop:
`avg = (avg * (period - 1) + current) / period`, applied to both averages. -/
def wilderStep (period : ℚ) (a : ℚ × ℚ) (gl : ℚ × ℚ) : ℚ × ℚ :=
  ((a.1 * (period - 1) + gl.1) / period, (a.2 * (period - 1) + gl.2) / period)

/-- `rsi(closes, period)` from `src/utils/rsi.py`: `None` when fewer than
`period + 1` closes; otherwise seed averages are the simple means of the first
`period` gains/losses, the remaining changes are folded through Wilder
smoothing, and the result is `100` when the smoothed average loss is zero and
`100 - 100 / (1 + avg_gain / avg_loss)` otherwise.
`rsiAvgs` is the pair `(avg_gain, avg_loss)` after seeding on the first
`period` changes and Wilder-smoothing the rest. -/
def rsiAvgs (closes : List ℚ) (period : ℕ) : ℚ × ℚ :=
  ((changesOf closes).drop period).foldl (wilderStep (period : ℚ))
    ((((changesOf closes).take period).map Prod.fst).sum / (period : ℚ),
     (((changesOf closes).take period).map Prod.snd).sum / (period : ℚ))

def rsi (closes : List ℚ) (period : ℕ) : Option ℚ :=
  if closes.length < period + 1 then none
  else if (rsiAvgs closes period).2 = 0 then some 100
  else some (100 - 100 / (1 + (rsiAvgs closes period).1 / (rsiAvgs closes period).2))

/-- `rsi_multi(closes, periods)`: the per-period results, keyed by period. -/
def rsi_multi (closes : List ℚ) (periods : List ℕ) : List (ℕ × Option ℚ) :=
  periods.map (fun p => (p, rsi closes p))

/-! ## Breakout strategy (src/strategy/simple_strategy.py) -/

structure TradePlan where
  side : String
  entry : ℚ
  stop_loss : ℚ
  take_profit : ℚ
deriving DecidableEq

/-- `build_trade_plan`: stop-loss is the opposite side of the range and
take-profit is two risk units from entry. -/
def build_trade_plan (range_high range_low entry : ℚ) (side : String) : TradePlan :=
  if side = "LONG" then
    let stop_loss := range_low
    let take_profit := entry + 2 * (entry - stop_loss)
    { side := side, entry := entry, stop_loss := stop_loss, take_profit := take_profit }
  else
    let stop_loss := range_high
    let take_profit := entry - 2 * (stop_loss - entry)
    { side := side, entry := entry, stop_loss := stop_loss, take_profit := take_profit }

/-- `hold_or_exit_on_15m`: LONG holds iff the 15m close is strictly above the
range high (candidate stop = the candle's low); SHORT holds iff the close is
strictly below the range low (candidate stop = the candle's high). -/
def hold_or_exit_on_15m (side : String)
    (range_high range_low fifteen_m_close fifteen_m_high fifteen_m_low : ℚ) :
    Bool × Option ℚ :=
  if side = "LONG" then
    let should_hold := decide (fifteen_m_close > range_high)
    (should_hold, if should_hold then some fifteen_m_low else none)
  else
    let should_hold := decide (fifteen_m_close < range_low)
    (should_hold, if should_hold then some fifteen_m_high else none)

/-! ## Helper lemmas about the oscillator -/

lemma zipWith_sub_const {c : ℚ} :
    ∀ (l1 l2 : List ℚ), (∀ x ∈ l1, x = c) → (∀ x ∈ l2, x = c) →
      ∀ y ∈ List.zipWith (fun b a => b - a) l1 l2, y = 0 := by
  intro l1
  induction l1 with
  | nil => intro l2 _ _ y hy; simp at hy
  | cons a t ih =>
    intro l2 h1 h2 y hy
    cases l2 with
    | nil => simp at hy
    | cons b t2 =>
      simp only [List.zipWith, List.mem_cons] at hy
      rcases hy with hy | hy
      · have ha : a = c := h1 a (by simp)
        have hb : b = c := h2 b (by simp)
        simp [hy, ha, hb]
      · exact ih t2 (fun x hx => h1 x (List.mem_cons_of_mem _ hx))
          (fun x hx => h2 x (List.mem_cons_of_mem _ hx)) y hy

lemma changesOf_const {c : ℚ} {closes : List ℚ} (h : ∀ x ∈ closes, x = c) :
    ∀ p ∈ changesOf closes, p = (0, 0) := by
  intro p hp
  simp only [changesOf, List.mem_map] at hp
  obtain ⟨ch, hch, rfl⟩ := hp
  have : ch = 0 := zipWith_sub_const closes.tail closes
    (fun x hx => h x (List.mem_of_mem_tail hx)) h ch hch
  simp [this, gainLoss]

lemma foldl_wilder_snd_zero (P : ℚ) :
    ∀ (l : List (ℚ × ℚ)) (a : ℚ × ℚ), (∀ p ∈ l, p.2 = 0) → a.2 = 0 →
      (l.foldl (wilderStep P) a).2 = 0 := by
  intro l
  induction l with
  | nil => intro a _ ha; simpa using ha
  | cons p t ih =>
    intro a hl ha
    simp only [List.foldl_cons]
    refine ih _ (fun q hq => hl q (List.mem_cons_of_mem _ hq)) ?_
    have hp : p.2 = 0 := hl p (by simp)
    simp [wilderStep, hp, ha]

/-- Claim C5: for every period P ≥ 1 and every close series of length at least
P+1 whose values are all equal, the oscillator returns exactly 100. -/
theorem claim_C5 (P : ℕ) (c : ℚ) (closes : List ℚ)
    (hP : 1 ≤ P) (hlen : P + 1 ≤ closes.length) (hconst : ∀ x ∈ closes, x = c) :
    rsi closes P = some 100 := by
  have hpairs := changesOf_const hconst
  have hzero : (rsiAvgs closes P).2 = 0 := by
    simp only [rsiAvgs]
    apply foldl_wilder_snd_zero
    · intro p hp
      have := hpairs p (List.mem_of_mem_drop hp)
      simp [this]
    · have hall : ∀ x ∈ ((changesOf closes).take P).map Prod.snd, x = 0 := by
        intro x hx
        simp only [List.mem_map] at hx
        obtain ⟨p, hp, rfl⟩ := hx
        have := hpairs p (List.mem_of_mem_take hp)
        simp [this]
      have hsum : (((changesOf closes).take P).map Prod.snd).sum = 0 :=
        List.sum_eq_zero hall
      show (((changesOf closes).take P).map Prod.snd).sum / (P : ℚ) = 0
      rw [hsum, zero_div]
  simp only [rsi]
  rw [if_neg (by omega), if_pos hzero]

/-- Claim C6: fewer than P+1 closes gives an absent result, at least P+1 (with
P ≥ 1) gives a present one, and `rsi_multi` pairs each requested period with
exactly the single-period result on the same series. -/
theorem claim_C6 (P : ℕ) (closes : List ℚ) :
    (closes.length < P + 1 → rsi closes P = none)
    ∧ (1 ≤ P → P + 1 ≤ closes.length → (rsi closes P).isSome = true)
    ∧ (∀ periods : List ℕ, ∀ pr ∈ rsi_multi closes periods, pr.2 = rsi closes pr.1)
    ∧ (∀ periods : List ℕ, ∀ p ∈ periods, (p, rsi closes p) ∈ rsi_multi closes periods) := by
  refine ⟨?_, ?_, ?_, ?_⟩
  · intro h; simp [rsi, h]
  · intro _ hlen
    simp only [rsi]
    rw [if_neg (by omega)]
    split <;> simp
  · intro periods pr hpr
    simp only [rsi_multi, List.mem_map] at hpr
    obtain ⟨p, _, rfl⟩ := hpr
    rfl
  · intro periods p hp
    simp only [rsi_multi, List.mem_map]
    exact ⟨p, hp, rfl⟩

/-- Claim C6 witness: concrete instances of all three parts. -/
theorem claim_C6_witness :
    (rsi [1, 2] 2 = none)
    ∧ ((rsi [1, 2, 3] 2).isSome = true)
    ∧ (∀ pr ∈ rsi_multi [1, 2, 3] [2], pr.2 = rsi [1, 2, 3] pr.1)
    ∧ ((2, rsi [1, 2, 3] 2) ∈ rsi_multi [1, 2, 3] [2]) := by
  refine ⟨(claim_C6 2 [1, 2]).1 (by norm_num),
          (claim_C6 2 [1, 2, 3]).2.1 (by norm_num) (by norm_num),
          (claim_C6 2 [1, 2, 3]).2.2.1 [2],
          (claim_C6 2 [1, 2, 3]).2.2.2 [2] 2 (by norm_num)⟩

/-- Claim C5 witness: a constant series of length 3 with period 2 yields 100. -/
theorem claim_C5_witness : rsi [5, 5, 5] 2 = some 100 :=
  claim_C5 2 5 [5, 5, 5] (by norm_num) (by norm_num) (by intro x hx; simpa using hx)

/-- Claim C1: the trade plan puts the stop at the opposite range boundary and
the target two risk units from entry, with the spec's two concrete examples. -/
theorem claim_C1 (rh rl e : ℚ) :
    build_trade_plan rh rl e "LONG" =
      { side := "LONG", entry := e, stop_loss := rl, take_profit := e + 2 * (e - rl) }
    ∧ build_trade_plan rh rl e "SHORT" =
      { side := "SHORT", entry := e, stop_loss := rh, take_profit := e - 2 * (rh - e) }
    ∧ build_trade_plan 110 100 111 "LONG" =
      { side := "LONG", entry := 111, stop_loss := 100, take_profit := 133 }
    ∧ build_trade_plan 110 100 99 "SHORT" =
      { side := "SHORT", entry := 99, stop_loss := 110, take_profit := 77 } := by
  refine ⟨by simp [build_trade_plan], ?_, ?_, ?_⟩
  · simp only [build_trade_plan]
    rw [if_neg (by decide)]
  · simp only [build_trade_plan, if_pos rfl]
    norm_num
  · simp only [build_trade_plan]
    rw [if_neg (by decide)]
    norm_num

/-- Claim C2: the 15m evaluation holds exactly when the close is strictly
beyond the armed boundary, and the candidate stop is the candle's low (LONG)
or high (SHORT) when holding and absent otherwise. -/
theorem claim_C2 (rh rl c hi lo : ℚ) :
    hold_or_exit_on_15m "LONG" rh rl c hi lo =
      (decide (rh < c), if rh < c then some lo else none)
    ∧ hold_or_exit_on_15m "SHORT" rh rl c hi lo =
      (decide (c < rl), if c < rl then some hi else none) := by
  constructor
  · simp only [hold_or_exit_on_15m, if_pos rfl, gt_iff_lt]
    by_cases h : rh < c <;> simp [h]
  · simp only [hold_or_exit_on_15m]
    rw [if_neg (by decide)]
    by_cases h : c < rl <;> simp [h]

/-! ## Strictly decreasing series (claim C7) -/

lemma zipWith_sub_chain_neg :
    ∀ l : List ℚ, List.Chain' (fun a b => b < a) l →
      ∀ y ∈ List.zipWith (fun b a => b - a) l.tail l, y < 0 := by
  intro l
  induction l with
  | nil => intro _ y hy; simp at hy
  | cons a t ih =>
    intro hchain y hy
    cases t with
    | nil => simp at hy
    | cons b t2 =>
      rw [List.chain'_cons] at hchain
      simp only [List.tail_cons, List.zipWith, List.mem_cons] at hy
      rcases hy with rfl | hy
      · linarith [hchain.1]
      · exact ih hchain.2 y hy

lemma changesOf_dec {closes : List ℚ}
    (h : List.Chain' (fun a b : ℚ => b < a) closes) :
    ∀ p ∈ changesOf closes, p.1 = 0 ∧ 0 < p.2 := by
  intro p hp
  simp only [changesOf, List.mem_map] at hp
  obtain ⟨ch, hch, rfl⟩ := hp
  have hneg : ch < 0 := zipWith_sub_chain_neg closes h ch hch
  simp only [gainLoss]
  constructor
  · rw [if_neg (by linarith)]
  · rw [if_pos hneg]
    linarith

lemma foldl_wilder_pos (P : ℚ) (hP : 1 ≤ P) :
    ∀ (l : List (ℚ × ℚ)) (a : ℚ × ℚ),
      (∀ p ∈ l, p.1 = 0 ∧ 0 < p.2) → a.1 = 0 → 0 < a.2 →
      (l.foldl (wilderStep P) a).1 = 0 ∧ 0 < (l.foldl (wilderStep P) a).2 := by
  intro l
  induction l with
  | nil => intro a _ h1 h2; exact ⟨h1, h2⟩
  | cons p t ih =>
    intro a hl h1 h2
    have hp := hl p (by simp)
    simp only [List.foldl_cons]
    refine ih (wilderStep P a p) (fun q hq => hl q (List.mem_cons_of_mem _ hq)) ?_ ?_
    · simp only [wilderStep]
      rw [h1, hp.1, zero_mul, zero_add, zero_div]
    · simp only [wilderStep]
      apply div_pos
      · have hnn : 0 ≤ a.2 * (P - 1) := mul_nonneg h2.le (by linarith)
        linarith [hp.2]
      · linarith

lemma changesOf_length (closes : List ℚ) :
    (changesOf closes).length = closes.length - 1 := by
  simp only [changesOf, List.length_map, List.length_zipWith, List.length_tail]
  omega

/-- Claim C7 (amended): for every period P ≥ 1 and every strictly decreasing
close series of length at least P+1, the oscillator returns exactly 0 — the
lower bound is attained (zero smoothed gain against a positive smoothed
loss), not merely approached. -/
theorem claim_C7 (P : ℕ) (closes : List ℚ)
    (hP : 1 ≤ P) (hlen : P + 1 ≤ closes.length)
    (hdec : List.Chain' (fun a b : ℚ => b < a) closes) :
    rsi closes P = some 0 := by
  have hpairs := changesOf_dec hdec
  have hPQ : (1 : ℚ) ≤ (P : ℚ) := by exact_mod_cast hP
  have hfst : (((changesOf closes).take P).map Prod.fst).sum = 0 := by
    apply List.sum_eq_zero
    intro x hx
    simp only [List.mem_map] at hx
    obtain ⟨p, hp, rfl⟩ := hx
    exact (hpairs p (List.mem_of_mem_take hp)).1
  have htake : ((changesOf closes).take P).length = P := by
    rw [List.length_take, changesOf_length]
    omega
  have hsnd : 0 < (((changesOf closes).take P).map Prod.snd).sum := by
    apply List.sum_pos
    · intro x hx
      simp only [List.mem_map] at hx
      obtain ⟨p, hp, rfl⟩ := hx
      exact (hpairs p (List.mem_of_mem_take hp)).2
    · intro hnil
      have : (((changesOf closes).take P).map Prod.snd).length = 0 := by
        rw [hnil]; rfl
      rw [List.length_map, htake] at this
      omega
  have havgs : (rsiAvgs closes P).1 = 0 ∧ 0 < (rsiAvgs closes P).2 := by
    simp only [rsiAvgs]
    refine foldl_wilder_pos (P : ℚ) hPQ _ _
      (fun p hp => hpairs p (List.mem_of_mem_drop hp)) ?_ ?_
    · rw [hfst, zero_div]
    · exact div_pos hsnd (by linarith)
  simp only [rsi]
  rw [if_neg (by omega), if_neg (ne_of_gt havgs.2), havgs.1]
  norm_num

/-- Claim C7 witness: the strictly decreasing series [3, 2, 1] with period 2
yields exactly 0. -/
theorem claim_C7_witness : rsi [3, 2, 1] 2 = some 0 :=
  claim_C7 2 [3, 2, 1] (by norm_num) (by norm_num)
    (by simp only [List.chain'_cons, List.chain'_singleton, and_true]; norm_num)

/-- Claim C7 counterexample: on the strictly decreasing series [2, 1] with
period 1 the oscillator returns exactly 0, so its value does not lie strictly
between 0 and 100 as the claim states. -/
theorem claim_C7_counterexample :
    List.Chain' (fun a b : ℚ => b < a) [2, 1]
    ∧ 1 + 1 ≤ ([2, 1] : List ℚ).length
    ∧ rsi [2, 1] 1 = some 0
    ∧ ¬ (∀ r : ℚ, rsi [2, 1] 1 = some r → 0 < r ∧ r < 100) := by
  have heval : rsi [2, 1] 1 = some 0 := by
    norm_num [rsi, rsiAvgs, changesOf, gainLoss, wilderStep, List.zipWith, List.foldl]
  refine ⟨?_, by norm_num, heval, ?_⟩
  · simp only [List.chain'_cons, List.chain'_singleton, and_true]
    norm_num
  · intro hcl
    exact lt_irrefl 0 (hcl 0 heval).1

/-! ## Momentum scanner alert decision (src/utils/rsi_notifier.py) -/

/-- `_is_oversold`: per-interval oversold thresholds. -/
def is_oversold (interval : String) (r6 r12 : ℚ) : Bool :=
  if interval = "1m" then decide (r6 < 20) && decide (r12 < 30)
  else if interval = "5m" then decide (r6 < 30) && decide (r12 < 40)
  else if interval = "15m" then decide (r6 < 40)
  else false

/-- `_is_overbought`: per-interval first-gate overbought thresholds (the 1m
confirmation for 5m/15m lives in `check_signal`). -/
def is_overbought (interval : String) (r6 r12 : ℚ) : Bool :=
  if interval = "1m" then decide (r6 > 80) && decide (r12 > 70)
  else if interval = "5m" ∨ interval = "15m" then decide (r6 > 70)
  else false

inductive RsiSignal
  | oversold
  | overbought
  | noSignal
deriving DecidableEq

/-- The alert decision of `_check_and_notify`, with the fetched close series
passed in as data: `closes` is what `_closes_from_klines` returned for the
evaluated interval and `closes_1m` what it returned for the 1-minute
confirmation fetch (`none` models a failed fetch). At most one signal comes
out; oversold is checked first; for 5m/15m an overbought alert additionally
requires the last closed 1m candle's RSI6 to exceed 80. -/
def check_signal (interval : String) (closes closes_1m : Option (List ℚ)) : RsiSignal :=
  match closes with
  | none => .noSignal
  | some cs =>
    if cs.isEmpty then .noSignal
    else
      match rsi cs 6, rsi cs 12 with
      | some r6, some r12 =>
        if is_oversold interval r6 r12 then .oversold
        else if is_overbought interval r6 r12 then
          if interval = "5m" ∨ interval = "15m" then
            match closes_1m with
            | none => .noSignal
            | some c1 =>
              if c1.isEmpty then .noSignal
              else
                match rsi c1 6 with
                | none => .noSignal
                | some rsi6_1m => if rsi6_1m ≤ 80 then .noSignal else .overbought
          else .overbought
        else .noSignal
      | _, none => .noSignal
      | none, _ => .noSignal

/-! ## Momentum scanner debounce cursor (run_rsi_notifier) -/

/-- One per-(symbol, interval) iteration of the scanner loop: a candle whose
close_time is not greater than the stored cursor is skipped, otherwise the
cursor advances to it and the candle is evaluated. Returns (new cursor,
evaluated?). -/
def cursorStep (last ct : ℕ) : ℕ × Bool :=
  if ct ≤ last then (last, false) else (ct, true)

/-- Folding `cursorStep` over the stream of delivered close_times for one key,
collecting the close_times actually evaluated. -/
def cursorRun (c0 : ℕ) : List ℕ → ℕ × List ℕ
  | [] => (c0, [])
  | ct :: rest =>
    let s := cursorStep c0 ct
    let r := cursorRun s.1 rest
    (r.1, if s.2 then ct :: r.2 else r.2)

lemma cursorRun_mono : ∀ (l : List ℕ) (c0 : ℕ), c0 ≤ (cursorRun c0 l).1 := by
  intro l
  induction l with
  | nil => intro c0; exact le_refl c0
  | cons ct rest ih =>
    intro c0
    by_cases h : ct ≤ c0
    · simpa [cursorRun, cursorStep, h] using ih c0
    · have := ih ct
      simp only [cursorRun, cursorStep, if_neg h]
      omega

lemma cursorRun_mem_gt : ∀ (l : List ℕ) (c0 x : ℕ), x ∈ (cursorRun c0 l).2 → c0 < x := by
  intro l
  induction l with
  | nil => intro c0 x hx; simp [cursorRun] at hx
  | cons ct rest ih =>
    intro c0 x hx
    simp only [cursorRun, cursorStep] at hx
    by_cases h : ct ≤ c0
    · simp [h] at hx
      exact ih c0 x hx
    · simp [h] at hx
      rcases hx with rfl | hx
      · omega
      · have := ih ct x hx
        omega

lemma cursorRun_sorted : ∀ (l : List ℕ) (c0 : ℕ), List.Sorted (· < ·) (cursorRun c0 l).2 := by
  intro l
  induction l with
  | nil => intro c0; simp [cursorRun]
  | cons ct rest ih =>
    intro c0
    by_cases h : ct ≤ c0
    · simpa [cursorRun, cursorStep, h] using ih c0
    · simp only [cursorRun, cursorStep, if_neg h, if_true, List.sorted_cons]
      refine ⟨?_, ?_⟩
      · intro b hb
        exact cursorRun_mem_gt rest ct b (by simpa using hb)
      · simpa using ih ct

/-- Claim C4: per key, the debounce cursor never decreases across a run, the
evaluated close_times are strictly increasing — so a given closed candle is
evaluated (and can alert) at most once — and delivering a candle whose
close_time is not greater than the cursor is a no-op. -/
theorem claim_C4 (c0 : ℕ) (cts : List ℕ) :
    c0 ≤ (cursorRun c0 cts).1
    ∧ List.Sorted (· < ·) (cursorRun c0 cts).2
    ∧ (cursorRun c0 cts).2.Nodup
    ∧ ∀ ct, ct ≤ c0 → cursorRun c0 (ct :: cts) = cursorRun c0 cts := by
  refine ⟨cursorRun_mono cts c0, cursorRun_sorted cts c0,
    (cursorRun_sorted cts c0).nodup, ?_⟩
  intro ct hct
  simp [cursorRun, cursorStep, hct]

/-- Claim C4 witness: a concrete delivery stream with a duplicate and a stale
candle. -/
theorem claim_C4_witness :
    5 ≤ (cursorRun 5 [7, 7, 6, 9]).1
    ∧ List.Sorted (· < ·) (cursorRun 5 [7, 7, 6, 9]).2
    ∧ (cursorRun 5 [7, 7, 6, 9]).2.Nodup
    ∧ cursorRun 5 (3 :: [7, 7, 6, 9]) = cursorRun 5 [7, 7, 6, 9] := by
  have h := claim_C4 5 [7, 7, 6, 9]
  exact ⟨h.1, h.2.1, h.2.2.1, h.2.2.2 3 (by norm_num)⟩





/-- Claim C8 (amended): on a 15-minute evaluation with RSI6 and RSI12 present
and the oversold condition (RSI6 < 40) failing, an overbought alert is emitted
exactly when RSI6 > 70 and the 1-minute confirmation succeeds: the 1m close
series was fetched non-empty and its RSI6 is present and exceeds 80. -/
theorem claim_C8 (cs : List ℚ) (c1m : Option (List ℚ)) (r6 r12 : ℚ)
    (h6 : rsi cs 6 = some r6) (h12 : rsi cs 12 = some r12) (hnos : ¬ r6 < 40) :
    check_signal "15m" (some cs) c1m = RsiSignal.overbought ↔
      (70 < r6 ∧ ∃ l1, c1m = some l1 ∧ l1.isEmpty = false ∧
        ∃ v, rsi l1 6 = some v ∧ 80 < v) := by
  have hne : cs.isEmpty = false := by
    cases cs with
    | nil => simp [rsi] at h6
    | cons a t => rfl
  rcases c1m with _ | l1
  · simp [check_signal, hne, h6, h12, is_oversold, is_overbought, hnos]
  · simp [check_signal, hne, h6, h12, is_oversold, is_overbought, hnos]
    by_cases h70 : 70 < r6
    · simp only [if_pos h70, h70, true_and]
      by_cases hl : l1 = []
      · simp [hl]
      · simp only [if_neg hl, hl, not_false_iff, true_and]
        rcases h1 : rsi l1 6 with _ | v
        · simp [h1]
        · by_cases hv : v ≤ 80
          · simp [h1, hv]
          · simp [h1, hv]
            exact not_le.mp hv
    · simp [h70]

/-- A 15m close series whose RSI6 and RSI12 both equal 200/3 ≈ 66.7: above 60
but not above 70. -/
def cexCloses : List ℚ := [10, 12, 11, 11, 11, 11, 11, 11, 11, 11, 11, 11, 11]

/-- A 15m close series whose RSI6 and RSI12 both equal 75. -/
def obCloses : List ℚ := [10, 13, 12, 12, 12, 12, 12, 12, 12, 12, 12, 12, 12]

/-- A 1m close series whose RSI6 equals 90. -/
def ob1mCloses : List ℚ := [10, 19, 18, 18, 18, 18, 18]

/-- Claim C8 counterexample: a 15m evaluation with RSI6 = RSI12 = 200/3, not
oversold and with RSI6 > 60, produces no overbought alert (the coded threshold
is 70, not 60), falsifying the claim as stated. -/
theorem claim_C8_counterexample :
    rsi cexCloses 6 = some (200 / 3)
    ∧ rsi cexCloses 12 = some (200 / 3)
    ∧ ¬ ((200 : ℚ) / 3 < 40)
    ∧ (60 : ℚ) < 200 / 3
    ∧ check_signal "15m" (some cexCloses) (some cexCloses) = RsiSignal.noSignal := by
  have h6 : rsi cexCloses 6 = some (200 / 3) := by
    norm_num [cexCloses, rsi, rsiAvgs, changesOf, gainLoss, wilderStep,
      List.zipWith, List.foldl]
  have h12 : rsi cexCloses 12 = some (200 / 3) := by
    norm_num [cexCloses, rsi, rsiAvgs, changesOf, gainLoss, wilderStep,
      List.zipWith, List.foldl]
  have hos : is_oversold "15m" (200 / 3) (200 / 3) = false := by
    norm_num [is_oversold]
  have hob : is_overbought "15m" (200 / 3) (200 / 3) = false := by
    norm_num [is_overbought]
  have hne : cexCloses.isEmpty = false := rfl
  refine ⟨h6, h12, by norm_num, by norm_num, ?_⟩
  simp [check_signal, hne, h6, h12, hos, hob]

/-- Claim C8 witness: with 15m RSI6 = RSI12 = 75 (> 70, not oversold) and a
1-minute confirmation series of RSI6 = 90 > 80, the overbought alert fires. -/
theorem claim_C8_witness :
    check_signal "15m" (some obCloses) (some ob1mCloses) = RsiSignal.overbought := by
  have h6 : rsi obCloses 6 = some 75 := by
    norm_num [obCloses, rsi, rsiAvgs, changesOf, gainLoss, wilderStep,
      List.zipWith, List.foldl]
  have h12 : rsi obCloses 12 = some 75 := by
    norm_num [obCloses, rsi, rsiAvgs, changesOf, gainLoss, wilderStep,
      List.zipWith, List.foldl]
  have h1m : rsi ob1mCloses 6 = some 90 := by
    norm_num [ob1mCloses, rsi, rsiAvgs, changesOf, gainLoss, wilderStep,
      List.zipWith, List.foldl]
  exact (claim_C8 obCloses (some ob1mCloses) 75 75 h6 h12 (by norm_num)).mpr
    ⟨by norm_num, ob1mCloses, rfl, rfl, 90, h1m, by norm_num⟩

/-! ## Trade lifecycle controller (src/main.py) -/

/-- `_side_to_binance`. -/
def side_to_binance (side : String) : String :=
  if side = "LONG" then "BUY" else "SELL"

/-- `_opposite_side`. -/
def opposite_side (side : String) : String :=
  if side = "BUY" then "SELL" else "BUY"

structure Kline where
  open_time : ℕ
  close_time : ℕ
  high : ℚ
  low : ℚ
  close : ℚ
deriving DecidableEq

/-- The configuration fields the control flow of `main` reads. -/
structure Config where
  dry_run : Bool
  move_sl_on_hold : Bool
  quantity : ℚ
deriving DecidableEq

/-- The exchange-mutating operations of `BinanceFutures` that `main` can
invoke. -/
inductive ExchangeCall
  | set_leverage
  | cancel_all_orders
  | place_market_order (side : String) (qty : ℚ)
  | place_stop_market (side : String) (stop_price qty : ℚ)
  | place_take_profit_market (side : String) (stop_price qty : ℚ)
deriving DecidableEq

/-- Control state of the `main` loop: IDLE waiting for a 15m close, ARMED with
a captured range and the open_time of the active 15m candle, or IN_POSITION
with the immutable plan, the tracked current stop-loss and the armed range. -/
inductive BotState
  | idle
  | armed (range_high range_low : ℚ) (active_15m_open : ℕ)
  | inPosition (plan : TradePlan) (current_sl range_high range_low : ℚ)
deriving DecidableEq

/-- Oracle events: the data each blocking wait of `main` returns. `range15`
carries the newly closed 15m candle and the open_time of the then-active 15m
candle; `trigger1m` a closed 1m candle's close and the active 15m open_time
re-checked after it; `position15` a closed 15m candle and the live position
size queried on that tick. -/
inductive Event
  | range15 (k : Kline) (activeOpen : ℕ)
  | trigger1m (close_price : ℚ) (activeCheckOpen : ℕ)
  | position15 (k : Kline) (position_amt_live : ℚ)
deriving DecidableEq

/-- The one-off startup effect: leverage is set only outside dry-run. -/
def startupCalls (cfg : Config) : List ExchangeCall :=
  if cfg.dry_run then [] else [.set_leverage]

/-- Order calls on breakout entry (cancel, market entry, protective stop,
target), all skipped in dry-run. -/
def entryCalls (cfg : Config) (plan : TradePlan) : List ExchangeCall :=
  if cfg.dry_run then []
  else
    [.cancel_all_orders,
     .place_market_order (side_to_binance plan.side) cfg.quantity,
     .place_stop_market (opposite_side (side_to_binance plan.side)) plan.stop_loss cfg.quantity,
     .place_take_profit_market (opposite_side (side_to_binance plan.side)) plan.take_profit
       cfg.quantity]

/-- One ARMED-state tick of `main`: the range-rollover check comes first and
short-circuits breakout evaluation; then LONG breakout above the range high,
SHORT breakout below the range low, else stay armed. -/
def armedStep (cfg : Config) (range_high range_low : ℚ) (active_15m_open : ℕ)
    (close_price : ℚ) (activeCheckOpen : ℕ) : BotState × List ExchangeCall :=
  if activeCheckOpen ≠ active_15m_open then (.idle, [])
  else if close_price > range_high then
    let plan := build_trade_plan range_high range_low close_price "LONG"
    (.inPosition plan plan.stop_loss range_high range_low, entryCalls cfg plan)
  else if close_price < range_low then
    let plan := build_trade_plan range_high range_low close_price "SHORT"
    (.inPosition plan plan.stop_loss range_high range_low, entryCalls cfg plan)
  else (.armed range_high range_low active_15m_open, [])

/-- One IN_POSITION-state tick of `main`: outside dry-run a zero live position
means the stop/target already filled (back to IDLE, no calls); otherwise
evaluate hold/exit; on exit cancel and market-close (live only); on hold, when
stop tightening is enabled and the candidate stop strictly improves on the
current one, adopt it and (live only) replace the stop/target pair. -/
def positionStep (cfg : Config) (plan : TradePlan) (current_sl range_high range_low : ℚ)
    (k : Kline) (position_amt_live : ℚ) : BotState × List ExchangeCall :=
  if cfg.dry_run = false ∧ position_amt_live = 0 then (.idle, [])
  else
    let position_amt := if cfg.dry_run then cfg.quantity else position_amt_live
    let hr := hold_or_exit_on_15m plan.side range_high range_low k.close k.high k.low
    if hr.1 = false then
      (.idle,
       if cfg.dry_run then []
       else [.cancel_all_orders,
             .place_market_order (opposite_side (side_to_binance plan.side)) |position_amt|])
    else
      match cfg.move_sl_on_hold, hr.2 with
      | true, some new_sl =>
        if (plan.side = "LONG" ∧ new_sl > current_sl)
            ∨ (plan.side = "SHORT" ∧ new_sl < current_sl) then
          (.inPosition plan new_sl range_high range_low,
           if cfg.dry_run then []
           else [.cancel_all_orders,
                 .place_stop_market (opposite_side (side_to_binance plan.side)) new_sl
                   cfg.quantity,
                 .place_take_profit_market (opposite_side (side_to_binance plan.side))
                   plan.take_profit cfg.quantity])
        else (.inPosition plan current_sl range_high range_low, [])
      | _, _ => (.inPosition plan current_sl range_high range_low, [])

/-- One tick of the whole controller, dispatching on state; an event of the
wrong kind for the current state cannot arise in the real loops and is a
no-op here. -/
def mainStep (cfg : Config) (st : BotState) (ev : Event) : BotState × List ExchangeCall :=
  match st, ev with
  | .idle, .range15 k activeOpen => (.armed k.high k.low activeOpen, [])
  | .armed rh rl open0, .trigger1m close_price activeCheckOpen =>
      armedStep cfg rh rl open0 close_price activeCheckOpen
  | .inPosition plan sl rh rl, .position15 k pos => positionStep cfg plan sl rh rl k pos
  | s, _ => (s, [])

/-- Running the controller over an event stream, concatenating the calls. -/
def mainRun (cfg : Config) (st : BotState) : List Event → BotState × List ExchangeCall
  | [] => (st, [])
  | ev :: evs =>
    let s1 := mainStep cfg st ev
    let s2 := mainRun cfg s1.1 evs
    (s2.1, s1.2 ++ s2.2)

/-- The tracked current stop-loss, when in position. -/
def stateSl : BotState → Option ℚ
  | .inPosition _ sl _ _ => some sl
  | _ => none

/-- Claim C9: in ARMED, a range rollover (the re-checked active 15m open_time
differs from the one captured at arming) returns the controller to IDLE with
no order calls, whatever the trigger close — breakout is not evaluated on
that tick. -/
theorem claim_C9 (cfg : Config) (rh rl : ℚ) (open0 : ℕ) (close_price : ℚ)
    (activeCheckOpen : ℕ) (h : activeCheckOpen ≠ open0) :
    mainStep cfg (.armed rh rl open0) (.trigger1m close_price activeCheckOpen) =
      (.idle, []) := by
  simp [mainStep, armedStep, h]

/-- Claim C9 witness: rollover with live execution and a close satisfying the
LONG breakout condition still yields IDLE and no calls. -/
theorem claim_C9_witness :
    mainStep ⟨false, false, 1⟩ (.armed 110 100 5) (.trigger1m 111 7) = (.idle, []) :=
  claim_C9 ⟨false, false, 1⟩ 110 100 5 111 7 (by norm_num)

lemma mainStep_dry (cfg : Config) (h : cfg.dry_run = true) (st : BotState) (ev : Event) :
    (mainStep cfg st ev).2 = [] := by
  rcases cfg with ⟨d, m, q⟩
  cases h
  cases st <;> cases ev <;>
    simp only [mainStep, armedStep, positionStep, entryCalls] <;>
    repeat' split
  all_goals first
  | rfl
  | (exfalso; exact (by assumption : ¬True) trivial)

lemma mainRun_dry (cfg : Config) (h : cfg.dry_run = true) (st : BotState) :
    ∀ evs : List Event, (mainRun cfg st evs).2 = [] := by
  intro evs
  induction evs generalizing st with
  | nil => rfl
  | cons ev evs ih =>
    simp only [mainRun]
    rw [mainStep_dry cfg h st ev, ih]
    rfl

/-- Claim C10: with the dry-run flag set, no exchange-mutating call is ever
made — neither the startup leverage call nor any call across an arbitrary run
of the controller from any state. -/
theorem claim_C10 (cfg : Config) (h : cfg.dry_run = true) :
    startupCalls cfg = [] ∧ ∀ (st : BotState) (evs : List Event), (mainRun cfg st evs).2 = [] := by
  constructor
  · simp [startupCalls, h]
  · intro st evs
    exact mainRun_dry cfg h st evs

/-- Claim C10 witness: a dry-run configuration driven through an entry, a hold
with tightening enabled, and an exit produces no exchange calls at all. -/
theorem claim_C10_witness :
    startupCalls ⟨true, true, 1⟩ = []
    ∧ (mainRun ⟨true, true, 1⟩ .idle
        [.range15 ⟨0, 10, 110, 100, 105⟩ 11,
         .trigger1m 111 11,
         .position15 ⟨12, 20, 115, 112, 114⟩ 1,
         .position15 ⟨21, 30, 112, 104, 105⟩ 1]).2 = [] := by
  have h := claim_C10 ⟨true, true, 1⟩ rfl
  exact ⟨h.1, h.2 .idle _⟩

/-- Claim C3: while in position the tracked stop-loss is monotone in the
trade's favor on every tick — for LONG it never decreases, for SHORT it never
increases, whatever candidate the candle produces — and a candidate that does
not strictly improve on the current stop (LONG candidate = the candle's low
not above it; SHORT candidate = the candle's high not below it) leaves state
and orders untouched on a holding tick. -/
theorem claim_C3 (cfg : Config) (plan : TradePlan) (sl rh rl : ℚ) :
    (∀ (ev : Event) (sl' : ℚ), plan.side = "LONG" →
        stateSl (mainStep cfg (.inPosition plan sl rh rl) ev).1 = some sl' → sl ≤ sl')
    ∧ (∀ (ev : Event) (sl' : ℚ), plan.side = "SHORT" →
        stateSl (mainStep cfg (.inPosition plan sl rh rl) ev).1 = some sl' → sl' ≤ sl)
    ∧ (∀ (k : Kline) (pos : ℚ), plan.side = "LONG" → k.low ≤ sl →
        ¬(cfg.dry_run = false ∧ pos = 0) → rh < k.close →
        mainStep cfg (.inPosition plan sl rh rl) (.position15 k pos) =
          (.inPosition plan sl rh rl, []))
    ∧ (∀ (k : Kline) (pos : ℚ), plan.side = "SHORT" → sl ≤ k.high →
        ¬(cfg.dry_run = false ∧ pos = 0) → k.close < rl →
        mainStep cfg (.inPosition plan sl rh rl) (.position15 k pos) =
          (.inPosition plan sl rh rl, [])) := by
  refine ⟨?_, ?_, ?_, ?_⟩
  · intro ev sl' hside hst
    cases ev with
    | range15 k a =>
      simp [mainStep, stateSl] at hst
      exact le_of_eq hst
    | trigger1m c a =>
      simp [mainStep, stateSl] at hst
      exact le_of_eq hst
    | position15 k pos =>
      rcases hho : hold_or_exit_on_15m plan.side rh rl k.close k.high k.low with ⟨b, o⟩
      simp only [mainStep, positionStep, hho] at hst
      by_cases hz : cfg.dry_run = false ∧ pos = 0
      · rw [if_pos hz] at hst
        simp [stateSl] at hst
      · rw [if_neg hz] at hst
        cases b with
        | false => simp [stateSl] at hst
        | true =>
          rw [if_neg (by simp)] at hst
          rcases o with _ | nsl
          · simp [stateSl] at hst
            exact le_of_eq hst
          · cases hm : cfg.move_sl_on_hold with
            | false =>
              simp [hm, stateSl] at hst
              exact le_of_eq hst
            | true =>
              simp only [hm] at hst
              by_cases ht : plan.side = "LONG" ∧ nsl > sl ∨ plan.side = "SHORT" ∧ nsl < sl
              · rw [if_pos ht] at hst
                simp [stateSl] at hst
                rcases ht with ⟨_, hlt⟩ | ⟨hS, _⟩
                · rw [← hst]
                  exact le_of_lt hlt
                · rw [hside] at hS
                  exact absurd hS (by decide)
              · rw [if_neg ht] at hst
                simp [stateSl] at hst
                exact le_of_eq hst
  · intro ev sl' hside hst
    cases ev with
    | range15 k a =>
      simp [mainStep, stateSl] at hst
      exact le_of_eq hst.symm
    | trigger1m c a =>
      simp [mainStep, stateSl] at hst
      exact le_of_eq hst.symm
    | position15 k pos =>
      rcases hho : hold_or_exit_on_15m plan.side rh rl k.close k.high k.low with ⟨b, o⟩
      simp only [mainStep, positionStep, hho] at hst
      by_cases hz : cfg.dry_run = false ∧ pos = 0
      · rw [if_pos hz] at hst
        simp [stateSl] at hst
      · rw [if_neg hz] at hst
        cases b with
        | false => simp [stateSl] at hst
        | true =>
          rw [if_neg (by simp)] at hst
          rcases o with _ | nsl
          · simp [stateSl] at hst
            exact le_of_eq hst.symm
          · cases hm : cfg.move_sl_on_hold with
            | false =>
              simp [hm, stateSl] at hst
              exact le_of_eq hst.symm
            | true =>
              simp only [hm] at hst
              by_cases ht : plan.side = "LONG" ∧ nsl > sl ∨ plan.side = "SHORT" ∧ nsl < sl
              · rw [if_pos ht] at hst
                simp [stateSl] at hst
                rcases ht with ⟨hL, _⟩ | ⟨_, hlt⟩
                · rw [hside] at hL
                  exact absurd hL (by decide)
                · rw [← hst]
                  exact le_of_lt hlt
              · rw [if_neg ht] at hst
                simp [stateSl] at hst
                exact le_of_eq hst.symm
  · intro k pos hside hlow hz hclose
    have hho : hold_or_exit_on_15m plan.side rh rl k.close k.high k.low = (true, some k.low) := by
      simp [hold_or_exit_on_15m, hside, hclose]
    cases hm : cfg.move_sl_on_hold <;>
      simp [mainStep, positionStep, hho, hz, hm]
    intro ht
    exfalso
    rcases ht with ⟨_, hgt⟩ | ⟨hS, _⟩
    · exact absurd hgt (not_lt.mpr hlow)
    · rw [hside] at hS
      exact absurd hS (by decide)
  · intro k pos hside hhigh hz hclose
    have hho : hold_or_exit_on_15m plan.side rh rl k.close k.high k.low = (true, some k.high) := by
      simp [hold_or_exit_on_15m, hside, hclose]
    cases hm : cfg.move_sl_on_hold <;>
      simp [mainStep, positionStep, hho, hz, hm]
    intro ht
    exfalso
    rcases ht with ⟨hL, _⟩ | ⟨_, hlt⟩
    · rw [hside] at hL
      exact absurd hL (by decide)
    · exact absurd hlt (not_lt.mpr hhigh)

/-- Claim C3 witness: a LONG position holding on a 15m close whose low (the
candidate stop) is below the current stop keeps the stop and makes no calls. -/
theorem claim_C3_witness :
    mainStep ⟨true, true, 1⟩
      (.inPosition ⟨"LONG", 111, 100, 133⟩ 100 110 100)
      (.position15 ⟨12, 20, 115, 99, 112⟩ 5) =
      (.inPosition ⟨"LONG", 111, 100, 133⟩ 100 110 100, []) :=
  (claim_C3 ⟨true, true, 1⟩ ⟨"LONG", 111, 100, 133⟩ 100 110 100).2.2.1
    ⟨12, 20, 115, 99, 112⟩ 5 rfl (by norm_num) (by simp) (by norm_num)
